import Mathlib

/-!
Shallow embedding of the keep-go-file-alive scripts
(`src/src/ping-gofile.js` and the revision in `src/unnamed/part_002`).

JS numbers are modelled as `Nat` (all quantities involved are byte counts,
attempt counts and millisecond delays, none of which overflow or go
negative in the embedded code paths), thrown errors as `Except`, and the
`this.stats` object as an explicitly threaded record.  A response body
stream is modelled as the list of chunk lengths successive `reader.read()`
calls deliver.
-/

namespace KGF

/-- A thrown JS `Error`: only its `message` is ever inspected by the code. -/
structure JsError where
  message : String
deriving Repr, DecidableEq

/-- Whether `pat` is a prefix of `l` (character lists). -/
def isPrefixChars : List Char → List Char → Bool
  | [], _ => true
  | _ :: _, [] => false
  | c :: cs, d :: ds => c == d && isPrefixChars cs ds

/-- Whether `pat` occurs as a contiguous run anywhere in the list. -/
def containsChars (pat : List Char) : List Char → Bool
  | [] => isPrefixChars pat []
  | c :: t => isPrefixChars pat (c :: t) || containsChars pat t

/-- JS `String.prototype.includes(pat)`: `pat` occurs as a substring of `s`. -/
def includesSubstr (s pat : String) : Bool :=
  containsChars pat.data s.data

/-- The backoff delay computed in `retryOperation`
(`src/src/ping-gofile.js` lines 56–66) after the failure of attempt
`attempt`: `min(10000 * 3^(attempt-1), 60000)` when the error message
contains `"429"`, else `min(1000 * 2^(attempt-1), 10000)`. -/
def backoffDelay (isRateLimited : Bool) (attempt : Nat) : Nat :=
  if isRateLimited then min (10000 * 3 ^ (attempt - 1)) 60000
  else min (1000 * 2 ^ (attempt - 1)) 10000

/-- Result of a `retryOperation` call: the returned value or the re-thrown
last error (`none` models the JS `undefined` when no attempt ran), the
final state of the mutable environment, the number of invocations of the
operation, and the list of backoff delays slept, in order. -/
structure RetryResult (σ α : Type) where
  result : Except (Option JsError) α
  state : σ
  attempts : Nat
  delays : List Nat
deriving Repr

/-- The loop body of `retryOperation` (`src/src/ping-gofile.js` lines 45–74).
`fuel` is the number of loop iterations left (`maxRetries - attempt + 1`),
`attempt` the 1-based attempt counter, `lastError` the error captured so
far.  The operation may mutate the threaded state `σ` even when it throws,
exactly as the JS closures mutate `this.stats`. -/
def retryAux {σ α : Type} (op : Nat → σ → Except JsError α × σ) (maxRetries : Nat) :
    Nat → Nat → Option JsError → σ → RetryResult σ α
  | 0, _, lastError, s => ⟨.error lastError, s, 0, []⟩
  | fuel+1, attempt, _, s =>
    match op attempt s with
    | (.ok a, s') => ⟨.ok a, s', 1, []⟩
    | (.error e, s') =>
      if attempt < maxRetries then
        let delay := backoffDelay (includesSubstr e.message "429") attempt
        let r := retryAux op maxRetries fuel (attempt+1) (some e) s'
        ⟨r.result, r.state, r.attempts + 1, delay :: r.delays⟩
      else ⟨.error (some e), s', 1, []⟩

/-- `retryOperation(operation, maxRetries)` from `src/src/ping-gofile.js`
lines 45–74: up to `maxRetries` attempts, backoff between attempts (never
after the last), re-throw of the last captured error on exhaustion. -/
def retryOperation {σ α : Type} (op : Nat → σ → Except JsError α × σ)
    (maxRetries : Nat) (s : σ) : RetryResult σ α :=
  retryAux op maxRetries maxRetries 1 none s

/-- The fatal message thrown by `parseUrls` when no valid URL remains. -/
def noValidUrlsMsg : String := "No valid URLs found in GOFILE_URLS environment variable"

/-- JS whitespace characters relevant to the modelled inputs (`trim`
removes carriage returns, which is why splitting on `"\n"` and trimming is
equivalent to the source's split on `/\r?\n/` followed by `trim`). -/
def isWS (c : Char) : Bool :=
  c == ' ' || c == '\t' || c == '\r' || c == '\n'

/-- `s.trim()` on a character list: strip whitespace at both ends. -/
def trimChars (l : List Char) : List Char :=
  ((l.dropWhile isWS).reverse.dropWhile isWS).reverse

/-- Split a character list at every newline (like JS `split`, an input
without newlines yields one segment, and a trailing newline yields a
trailing empty segment). -/
def splitNl : List Char → List (List Char)
  | [] => [[]]
  | c :: rest =>
    if c = '\n' then [] :: splitNl rest
    else
      match splitNl rest with
      | [] => [[c]]
      | l :: ls => (c :: l) :: ls

/-- The trimmed lines of the configuration string:
`urlsEnv.split(/\r?\n/).map(s => s.trim())`. -/
def trimmedLines (s : String) : List String :=
  (splitNl s.data).map (fun cs => String.mk (trimChars cs))

/-- `parseUrls()` (`src/src/ping-gofile.js` lines 76–98): split the
configuration string on line breaks, trim each line, drop falsy (empty)
lines, drop lines rejected by the URL parser (one warning each, returned
as the second component), and throw when nothing remains.  The WHATWG
`new URL` validity test lives in the platform, not in this repository, so
it is a parameter `isValidURL`. -/
def parseUrls (isValidURL : String → Bool) (urlsEnv : String) :
    Except JsError (List String) × List String :=
  let lines := (trimmedLines urlsEnv).filter (fun s => s != "")
  let urls := lines.filter isValidURL
  let warnings := (lines.filter (fun u => !(isValidURL u))).map
    (fun u => "Invalid URL format: " ++ u)
  if urls.length = 0 then (.error ⟨noValidUrlsMsg⟩, warnings) else (.ok urls, warnings)

/-- A fetched HTTP response: status, status text, and the body stream as
the list of chunk lengths `reader.read()` delivers (`none` models a null
`response.body`). -/
structure Response where
  status : Nat
  statusText : String
  body : Option (List Nat)
deriving Repr, DecidableEq

/-- The error message of the `throw new Error(\x7bHTTP status statusText\x7d)`
branches of both verifiers. -/
def httpErrorMsg (r : Response) : String :=
  "HTTP " ++ toString r.status ++ " " ++ r.statusText

/-- `this.stats` of `src/src/ping-gofile.js` (lines 17–23). -/
structure Stats where
  totalUrls : Nat := 0
  totalLinks : Nat := 0
  successfulDownloads : Nat := 0
  failedDownloads : Nat := 0
  errors : List (String × String) := []
deriving Repr, DecidableEq

/-- `this.stats` of the `src/unnamed/part_002` revision (lines 16–24). -/
structure StatsP where
  totalUrls : Nat := 0
  totalLinks : Nat := 0
  successfulPings : Nat := 0
  failedPings : Nat := 0
  downloadedBytes : Nat := 0
  bytesPerLink : List (String × Nat) := []
  errors : List (String × String) := []
deriving Repr, DecidableEq

/-- `m[k] || 0` on a JS object modelled as an association list. -/
def getAssoc (m : List (String × Nat)) (k : String) : Nat :=
  (m.lookup k).getD 0

/-- `m[k] = v` on a JS object modelled as an association list. -/
def setAssoc (m : List (String × Nat)) (k : String) (v : Nat) :
    List (String × Nat) :=
  if m.any (fun p => p.1 == k) then m.map (fun p => if p.1 == k then (k, v) else p)
  else m ++ [(k, v)]

/-- The body-reading loop of `downloadSampleFromLink`
(`src/src/ping-gofile.js` lines 332–342):
`while (downloadedBytes < maxBytes) { read; if done break; downloadedBytes += len }`.
Whole chunks are added; the loop neither truncates the chunk that crosses
the budget nor cancels the reader (it only releases the lock afterwards).
Returns the total number of bytes read. -/
def readLoopSample (maxBytes : Nat) : List Nat → Nat → Nat
  | [], downloaded => downloaded
  | c :: rest, downloaded =>
    if downloaded < maxBytes then readLoopSample maxBytes rest (downloaded + c)
    else downloaded

/-- The body-reading loop of `downloadPartial` (`src/unnamed/part_002`
lines 226–237): reads whole chunks while `received < bytesToDownload`;
as soon as `received >= bytesToDownload` after adding a chunk it cancels
the reader and breaks.  Returns the bytes read and whether
`reader.cancel()` was called. -/
def readLoop (bytesToDownload : Nat) : List Nat → Nat → Nat × Bool
  | [], received => (received, false)
  | c :: rest, received =>
    if received < bytesToDownload then
      let r := received + c
      if bytesToDownload ≤ r then (r, true)
      else readLoop bytesToDownload rest r
    else (received, false)

/-- `downloadSampleFromLink(url)` (`src/src/ping-gofile.js` lines 310–356)
applied to the outcome of its `fetch`.  Status 200 or 206: the body (if
any) is read via `readLoopSample` and discarded — this revision keeps no
byte counter — and `successfulDownloads` is incremented; any other status
throws `HTTP <status> <statusText>`; every caught error increments
`failedDownloads` and appends `(url, message)` to `errors`. -/
def downloadSampleFromLink (stats : Stats) (url : String)
    (fetchResult : Except JsError Response) : Bool × Stats :=
  match fetchResult with
  | .error e =>
    (false, { stats with failedDownloads := stats.failedDownloads + 1,
                         errors := stats.errors ++ [(url, e.message)] })
  | .ok r =>
    if r.status = 200 ∨ r.status = 206 then
      (true, { stats with successfulDownloads := stats.successfulDownloads + 1 })
    else
      (false, { stats with failedDownloads := stats.failedDownloads + 1,
                           errors := stats.errors ++ [(url, httpErrorMsg r)] })

/-- The message thrown by `downloadPartial` on a null `response.body`. -/
def noBodyMsg : String := "No response body"

/-- The catch branch of `downloadPartial` (`src/unnamed/part_002`
lines 247–252). -/
def failP (stats : StatsP) (url msg : String) : StatsP :=
  { stats with failedPings := stats.failedPings + 1,
               errors := stats.errors ++ [(url, msg)] }

/-- `downloadPartial(url, bytesToDownload)` (`src/unnamed/part_002`
lines 197–253) applied to the outcome of its `fetch`: non-200/206 status
and null body both throw; otherwise the body is read via `readLoop`,
`successfulPings` is incremented, and `min(received, bytesToDownload)`
bytes are added to `downloadedBytes` and to `bytesPerLink[url]`. -/
def downloadPartial (stats : StatsP) (url : String) (bytesToDownload : Nat)
    (fetchResult : Except JsError Response) : Bool × StatsP :=
  match fetchResult with
  | .error e => (false, failP stats url e.message)
  | .ok r =>
    if ¬(r.status = 200 ∨ r.status = 206) then
      (false, failP stats url (httpErrorMsg r))
    else
      match r.body with
      | none => (false, failP stats url noBodyMsg)
      | some chunks =>
        let received := (readLoop bytesToDownload chunks 0).1
        let counted := min received bytesToDownload
        (true, { stats with
          successfulPings := stats.successfulPings + 1,
          downloadedBytes := stats.downloadedBytes + counted,
          bytesPerLink := setAssoc stats.bytesPerLink url
            (getAssoc stats.bytesPerLink url + counted) })

/-- The retried operation of the per-link loop in `processUrl`
(`src/src/ping-gofile.js` lines 394–400): call `downloadSampleFromLink`
and throw `Download failed` when it returned `false`.  `fetchEnv url
attempt` is the outcome of the fetch performed by attempt `attempt` on
`url`. -/
def downloadOp (fetchEnv : String → Nat → Except JsError Response) (url : String)
    (attempt : Nat) (stats : Stats) : Except JsError Bool × Stats :=
  let r := downloadSampleFromLink stats url (fetchEnv url attempt)
  if r.1 then (.ok r.1, r.2) else (.error ⟨"Download failed"⟩, r.2)

/-- Result of the per-link loop: the `successCount` returned by
`processUrl`, or the error that escaped the loop; plus the final stats and
the total number of `downloadSampleFromLink` invocations made. -/
structure LinkLoopResult where
  result : Except (Option JsError) Nat
  stats : Stats
  attempts : Nat
deriving Repr

/-- The `for (const downloadLink of downloadLinks)` loop of `processUrl`
(`src/src/ping-gofile.js` lines 392–405).  Each link is verified through
`retryOperation(·, 2)`; the retry call sits in no try/catch, so when both
attempts fail the thrown error escapes the loop and the remaining links
are never visited. -/
def linkLoop (fetchEnv : String → Nat → Except JsError Response) :
    List String → Stats → Nat → LinkLoopResult
  | [], stats, successCount => ⟨.ok successCount, stats, 0⟩
  | url :: rest, stats, successCount =>
    let r := retryOperation (downloadOp fetchEnv url) 2 stats
    match r.result with
    | .ok v =>
      let k := linkLoop fetchEnv rest r.state (successCount + if v then 1 else 0)
      ⟨k.result, k.stats, r.attempts + k.attempts⟩
    | .error e => ⟨.error e, r.state, r.attempts⟩

/-- The retried operation of the probe phase of `processUrl`
(`src/src/ping-gofile.js` lines 363–381): `findDownloadLinks` drives the
browser and never touches `this.stats`; `probe url attempt` is the list of
candidate links it returns, or the error it throws, on attempt `attempt`. -/
def probeOp (probe : String → Nat → Except JsError (List String)) (url : String)
    (attempt : Nat) (stats : Stats) : Except JsError (List String) × Stats :=
  (probe url attempt, stats)

/-- Result of `processUrl`: the returned `successCount` or the propagated
error, with the stats after the call. -/
structure ProcessResult where
  result : Except (Option JsError) Nat
  stats : Stats
deriving Repr

/-- `processUrl(context, url)` (`src/src/ping-gofile.js` lines 358–420):
probe with the standard retry budget; zero links is returned as 0 with no
error recorded; otherwise `totalLinks` grows by the number of links and
the per-link loop runs.  The catch clause logs and rethrows, so errors
propagate unchanged to the caller. -/
def processUrl (probe : String → Nat → Except JsError (List String))
    (fetchEnv : String → Nat → Except JsError Response)
    (maxRetries : Nat) (stats : Stats) (url : String) : ProcessResult :=
  let r := retryOperation (probeOp probe url) maxRetries stats
  match r.result with
  | .error e => ⟨.error e, r.state⟩
  | .ok links =>
    if links.length = 0 then ⟨.ok 0, r.state⟩
    else
      let s1 := { r.state with totalLinks := r.state.totalLinks + links.length }
      let k := linkLoop fetchEnv links s1 0
      ⟨k.result, k.stats⟩

/-- The message rendered for the error object `run` records when
`processUrl` throws; `none` is the JS `undefined` thrown by a zero-attempt
retry. -/
def errText : Option JsError → String
  | some e => e.message
  | none => "undefined"

/-- The `for (let i = 0; ...)` loop over targets in `run()`
(`src/src/ping-gofile.js` lines 434–483): each target is processed in its
own try/catch; a thrown error is appended to `stats.errors` keyed by the
target URL and the loop continues with the remaining targets. -/
def runLoop (probe : String → Nat → Except JsError (List String))
    (fetchEnv : String → Nat → Except JsError Response)
    (maxRetries : Nat) : List String → Stats → Stats
  | [], stats => stats
  | url :: rest, stats =>
    let p := processUrl probe fetchEnv maxRetries stats url
    match p.result with
    | .ok _ => runLoop probe fetchEnv maxRetries rest p.stats
    | .error e => runLoop probe fetchEnv maxRetries rest
        { p.stats with errors := p.stats.errors ++ [(url, errText e)] }

/-- The fatal message thrown by `run()` when links were found but nothing
verified. -/
def noSuccessMsg : String := "No successful downloads were made despite finding download links"

/-- `run()` (`src/src/ping-gofile.js` lines 422–525) without the browser
plumbing: parse the configuration (its throw propagates), process every
target, then throw iff `successfulDownloads === 0 && totalLinks > 0`;
otherwise return the stats.  `parseUrls` sets `totalUrls` to the number of
valid targets. -/
def run (isValidURL : String → Bool) (config : String)
    (probe : String → Nat → Except JsError (List String))
    (fetchEnv : String → Nat → Except JsError Response)
    (maxRetries : Nat) : Except JsError Stats :=
  match (parseUrls isValidURL config).1 with
  | .error e => .error e
  | .ok urls =>
    let final := runLoop probe fetchEnv maxRetries urls { totalUrls := urls.length }
    if final.successfulDownloads = 0 ∧ 0 < final.totalLinks then .error ⟨noSuccessMsg⟩
    else .ok final

/-- The exit code chosen by the main entry point
(`src/src/ping-gofile.js` lines 529–541): 0 when `run()` resolves, 1 when
it rejects. -/
def mainExitCode : Except JsError Stats → Nat
  | .ok _ => 0
  | .error _ => 1

/-- Probe fixture for concrete evaluations: one target that always times
out, one with a single candidate link, one with no links at all. -/
def probeFixture : String → Nat → Except JsError (List String) :=
  fun u _ =>
    if u == "https://good" then Except.ok ["L"]
    else if u == "https://zero" then Except.ok []
    else Except.error ⟨"timeout"⟩

/-- Fetch fixture: every link responds 200 with one 100-byte chunk. -/
def fetchFixture : String → Nat → Except JsError Response :=
  fun _ _ => Except.ok ⟨200, "OK", some [100]⟩

/-! ## Retry primitive: behaviour under an always-failing operation -/

/-- One-step unfolding of `retryAux` when the current attempt throws. -/
theorem retryAux_succ_error {σ α : Type} (op : Nat → σ → Except JsError α × σ)
    (maxR fuel attempt : Nat) (last : Option JsError) (s s' : σ) (e : JsError)
    (hop : op attempt s = (Except.error e, s')) :
    retryAux op maxR (fuel + 1) attempt last s
      = if attempt < maxR then
          ⟨(retryAux op maxR fuel (attempt + 1) (some e) s').result,
           (retryAux op maxR fuel (attempt + 1) (some e) s').state,
           (retryAux op maxR fuel (attempt + 1) (some e) s').attempts + 1,
           backoffDelay (includesSubstr e.message "429") attempt
             :: (retryAux op maxR fuel (attempt + 1) (some e) s').delays⟩
        else ⟨Except.error (some e), s', 1, []⟩ := by
  simp only [retryAux, hop]

/-- One-step unfolding of `retryAux` when the current attempt returns. -/
theorem retryAux_succ_ok {σ α : Type} (op : Nat → σ → Except JsError α × σ)
    (maxR fuel attempt : Nat) (last : Option JsError) (s s' : σ) (a : α)
    (hop : op attempt s = (Except.ok a, s')) :
    retryAux op maxR (fuel + 1) attempt last s = ⟨Except.ok a, s', 1, []⟩ := by
  simp only [retryAux, hop]

/-- Closed form of `retryAux` when every attempt fails: with `fuel`
iterations left starting at attempt number `attempt` (so that
`attempt + fuel = n + 1`), the loop makes exactly `fuel` further attempts,
sleeps after each but the last, and finally re-throws the error of attempt
`n`. -/
theorem retryAux_fail {σ α : Type} (op : Nat → σ → Except JsError α × σ)
    (errs : Nat → JsError) (n : Nat)
    (hfail : ∀ i s, (op i s).1 = Except.error (errs i)) :
    ∀ fuel attempt last s, attempt + fuel = n + 1 → 1 ≤ fuel →
      (retryAux op n fuel attempt last s).result = Except.error (some (errs n))
      ∧ (retryAux op n fuel attempt last s).attempts = fuel
      ∧ (retryAux op n fuel attempt last s).delays
          = (List.range (fuel - 1)).map (fun j => backoffDelay
              (includesSubstr (errs (attempt + j)).message "429") (attempt + j)) := by
  intro fuel
  induction fuel with
  | zero => intro attempt last s _ h1; omega
  | succ f ih =>
    intro attempt last s hsum _
    have hres := hfail attempt s
    rcases hop : op attempt s with ⟨res, s'⟩
    rw [hop] at hres
    simp only at hres
    subst hres
    rw [retryAux_succ_error op n f attempt last s s' (errs attempt) hop]
    by_cases hcase : attempt < n
    · have hf1 : 1 ≤ f := by omega
      have hsum' : (attempt + 1) + f = n + 1 := by omega
      have h := ih (attempt + 1) (some (errs attempt)) s' hsum' hf1
      obtain ⟨f', rfl⟩ : ∃ f', f = f' + 1 := ⟨f - 1, by omega⟩
      rw [if_pos hcase]
      refine ⟨h.1, by rw [h.2.1], ?_⟩
      simp only
      rw [h.2.2]
      rw [show f' + 1 + 1 - 1 = f' + 1 from by omega,
          List.range_succ_eq_map, List.map_cons, List.map_map, List.cons.injEq]
      refine ⟨by simp, ?_⟩
      apply List.map_congr_left
      intro a _
      have e : attempt + 1 + a = attempt + (a + 1) := by omega
      simp only [Function.comp_apply, Nat.succ_eq_add_one, Nat.add_sub_cancel, e]
    · have hatt : attempt = n := by omega
      have hf0 : f = 0 := by omega
      subst hatt hf0
      rw [if_neg hcase]
      simp

/-- `retryOperation` under an always-failing operation: `n` attempts,
re-throw of attempt `n`'s error, and one backoff per non-final attempt. -/
theorem retryOperation_fail {σ α : Type} (op : Nat → σ → Except JsError α × σ)
    (errs : Nat → JsError) (n : Nat) (s : σ) (hn : 1 ≤ n)
    (hfail : ∀ i s', (op i s').1 = Except.error (errs i)) :
    (retryOperation op n s).result = Except.error (some (errs n))
    ∧ (retryOperation op n s).attempts = n
    ∧ (retryOperation op n s).delays
        = (List.range (n - 1)).map (fun j => backoffDelay
            (includesSubstr (errs (1 + j)).message "429") (1 + j)) :=
  retryAux_fail op errs n hfail n 1 none s (by omega) hn

/-- The backoff delay is monotone in the attempt index, on either profile. -/
theorem backoffDelay_mono (b : Bool) {i j : Nat} (h : i ≤ j) :
    backoffDelay b (i + 1) ≤ backoffDelay b (j + 1) := by
  unfold backoffDelay
  cases b <;> simp only [Nat.add_sub_cancel, if_true, if_false] <;>
    exact min_le_min (Nat.mul_le_mul_left _ (Nat.pow_le_pow_right (by omega) h)) le_rfl

/-- C3: for every `n ≥ 1` and every operation failing on each invocation,
`retryOperation` with maximum attempt count `n` invokes the operation
exactly `n` times and sleeps exactly `n - 1` times; when every failure is
uniformly recognizable (or not) as a 429 rate-limiting response, the i-th
delay is `min(10000 * 3^(i-1), 60000)` on the rate-limit profile and
`min(1000 * 2^(i-1), 10000)` on the standard profile, so the delays are
determined by the attempt index and non-decreasing. -/
theorem C3_retry_backoff {σ α : Type} (op : Nat → σ → Except JsError α × σ)
    (errs : Nat → JsError) (b : Bool) (n : Nat) (s : σ) (hn : 1 ≤ n)
    (hfail : ∀ i s', (op i s').1 = Except.error (errs i))
    (hb : ∀ i, includesSubstr (errs i).message "429" = b) :
    (retryOperation op n s).attempts = n
    ∧ (retryOperation op n s).delays.length = n - 1
    ∧ (retryOperation op n s).delays
        = (List.range (n - 1)).map (fun j =>
            if b then min (10000 * 3 ^ j) 60000 else min (1000 * 2 ^ j) 10000)
    ∧ (retryOperation op n s).delays.Pairwise (· ≤ ·) := by
  obtain ⟨hres, hatt, hdel⟩ := retryOperation_fail op errs n s hn hfail
  have hdel' : (retryOperation op n s).delays
      = (List.range (n - 1)).map (fun j => backoffDelay b (j + 1)) := by
    rw [hdel]
    apply List.map_congr_left
    intro a _
    rw [hb]
    congr 1
    omega
  refine ⟨hatt, ?_, ?_, ?_⟩
  · rw [hdel']; simp
  · rw [hdel']
    apply List.map_congr_left
    intro a _
    unfold backoffDelay
    cases b <;> simp
  · rw [hdel']
    exact (List.pairwise_lt_range _).map _
      (fun i j hij => backoffDelay_mono b (Nat.le_of_lt hij))

/-- Witness for C3: a 4-attempt run of always-429 failures sleeps
10 s, 30 s, 60 s; a 3-attempt run of ordinary failures makes 3 attempts
and sleeps 1 s then 2 s. -/
theorem C3_retry_backoff_witness :
    (retryOperation (σ := Unit) (α := Nat)
        (fun _ _ => (Except.error ⟨"HTTP 429 Too Many Requests"⟩, ())) 4 ()).delays
      = [10000, 30000, 60000]
    ∧ (retryOperation (σ := Unit) (α := Nat)
        (fun _ _ => (Except.error ⟨"boom"⟩, ())) 3 ()).attempts = 3
    ∧ (retryOperation (σ := Unit) (α := Nat)
        (fun _ _ => (Except.error ⟨"boom"⟩, ())) 3 ()).delays = [1000, 2000] := by
  have h1 := C3_retry_backoff (σ := Unit) (α := Nat)
    (fun _ _ => (Except.error ⟨"HTTP 429 Too Many Requests"⟩, ()))
    (fun _ => ⟨"HTTP 429 Too Many Requests"⟩) true 4 () (by omega)
    (fun _ _ => rfl)
    (fun _ => show includesSubstr "HTTP 429 Too Many Requests" "429" = true by decide)
  have h2 := C3_retry_backoff (σ := Unit) (α := Nat)
    (fun _ _ => (Except.error ⟨"boom"⟩, ()))
    (fun _ => ⟨"boom"⟩) false 3 () (by omega)
    (fun _ _ => rfl)
    (fun _ => show includesSubstr "boom" "429" = false by decide)
  refine ⟨?_, h2.1, ?_⟩
  · rw [h1.2.2.1]; rfl
  · rw [h2.2.2.1]; rfl

/-- C8: when every attempt fails, `retryOperation` re-raises exactly the
error captured from the last (`n`-th) attempt — not an earlier attempt's
error and not a fresh one — leaving the continue-or-abort decision to the
caller. -/
theorem C8_retry_rethrows_last {σ α : Type} (op : Nat → σ → Except JsError α × σ)
    (errs : Nat → JsError) (n : Nat) (s : σ) (hn : 1 ≤ n)
    (hfail : ∀ i s', (op i s').1 = Except.error (errs i)) :
    (retryOperation op n s).result = Except.error (some (errs n)) :=
  (retryOperation_fail op errs n s hn hfail).1

/-- Witness for C8: three attempts with pairwise distinct error messages
"e1", "e2", "e3" re-raise precisely "e3". -/
theorem C8_retry_rethrows_last_witness :
    (retryOperation (σ := Unit) (α := Nat)
        (fun i _ => (Except.error ⟨"e" ++ toString i⟩, ())) 3 ()).result
      = Except.error (some ⟨"e3"⟩) :=
  C8_retry_rethrows_last (fun i _ => (Except.error ⟨"e" ++ toString i⟩, ()))
    (fun i => ⟨"e" ++ toString i⟩) 3 () (by omega) (fun _ _ => rfl)

/-! ## Configuration loader -/

/-- C5: the configuration loader returns — in their original order and
with their original multiplicity (no deduplication) — exactly the trimmed
non-empty lines accepted by the URL validity test, emits one warning per
rejected line, and throws precisely when no line survives. -/
theorem C5_parseUrls_contract (isValidURL : String → Bool) (s : String) :
    (∀ l, (parseUrls isValidURL s).1 = Except.ok l →
        l ≠ []
        ∧ (∀ u ∈ l, isValidURL u = true ∧ u ≠ "")
        ∧ l.Sublist (trimmedLines s)
        ∧ (∀ u, l.count u
            = (((trimmedLines s).filter (fun t => t != "" && isValidURL t)).count u)))
    ∧ ((∃ e, (parseUrls isValidURL s).1 = Except.error e)
        ↔ ∀ u ∈ trimmedLines s, u ≠ "" → isValidURL u = false)
    ∧ (parseUrls isValidURL s).2.length
        = ((trimmedLines s).filter (fun t => t != "" && !(isValidURL t))).length := by
  have hfilter2 : ((trimmedLines s).filter (fun t => t != "")).filter isValidURL
      = (trimmedLines s).filter (fun t => t != "" && isValidURL t) := by
    rw [List.filter_filter]
    apply List.filter_congr
    intro x _
    exact Bool.and_comm _ _
  have hwarnlist : ((trimmedLines s).filter (fun t => t != "")).filter
        (fun u => !(isValidURL u))
      = (trimmedLines s).filter (fun t => t != "" && !(isValidURL t)) := by
    rw [List.filter_filter]
    apply List.filter_congr
    intro x _
    exact Bool.and_comm _ _
  by_cases h0 : (((trimmedLines s).filter (fun t => t != "")).filter isValidURL).length = 0
  · have hfst : (parseUrls isValidURL s).1 = Except.error ⟨noValidUrlsMsg⟩ := by
      simp only [parseUrls]
      rw [if_pos h0]
    have hsnd : (parseUrls isValidURL s).2
        = (((trimmedLines s).filter (fun t => t != "")).filter
            (fun u => !(isValidURL u))).map (fun u => "Invalid URL format: " ++ u) := by
      simp only [parseUrls]
      rw [if_pos h0]
    refine ⟨?_, ?_, ?_⟩
    · intro l hl
      rw [hfst] at hl
      exact absurd hl (by simp)
    · constructor
      · intro _ u hu hne
        have hnil : ((trimmedLines s).filter (fun t => t != "")).filter isValidURL = [] :=
          List.length_eq_zero.mp h0
        have := List.filter_eq_nil_iff.mp hnil u
          (List.mem_filter.mpr ⟨hu, by simpa using hne⟩)
        simpa using this
      · intro _
        exact ⟨⟨noValidUrlsMsg⟩, hfst⟩
    · rw [hsnd, List.length_map, hwarnlist]
  · have hfst : (parseUrls isValidURL s).1
        = Except.ok (((trimmedLines s).filter (fun t => t != "")).filter isValidURL) := by
      simp only [parseUrls]
      rw [if_neg h0]
    have hsnd : (parseUrls isValidURL s).2
        = (((trimmedLines s).filter (fun t => t != "")).filter
            (fun u => !(isValidURL u))).map (fun u => "Invalid URL format: " ++ u) := by
      simp only [parseUrls]
      rw [if_neg h0]
    refine ⟨?_, ?_, ?_⟩
    · intro l hl
      rw [hfst] at hl
      have hl' : ((trimmedLines s).filter (fun t => t != "")).filter isValidURL = l := by
        simpa using hl
      subst hl'
      refine ⟨?_, ?_, ?_, ?_⟩
      · intro hnil
        rw [hnil] at h0
        exact h0 rfl
      · intro u hu
        have h1 := (List.mem_filter.mp hu).2
        have h2 := List.mem_filter.mp (List.mem_filter.mp hu).1
        exact ⟨h1, by simpa using h2.2⟩
      · exact (List.filter_sublist _).trans (List.filter_sublist _)
      · intro u
        rw [hfilter2]
    · constructor
      · rintro ⟨e, he⟩
        rw [hfst] at he
        exact absurd he (by simp)
      · intro hall
        exfalso
        apply h0
        rw [List.length_eq_zero, List.filter_eq_nil_iff]
        intro u hu
        have h1 := List.mem_filter.mp hu
        have := hall u h1.1 (by simpa using h1.2)
        simp [this]
    · rw [hsnd, List.length_map, hwarnlist]

/-- Witness for C5 (end-to-end scenario A): the three-line configuration
with one malformed middle line yields exactly the two valid targets in
order and a single warning. -/
theorem C5_parseUrls_contract_witness :
    (parseUrls (fun u => !(u == "not-a-url"))
        "https://example.com/d/1\nnot-a-url\nhttps://example.com/d/2").1
      = Except.ok ["https://example.com/d/1", "https://example.com/d/2"]
    ∧ (parseUrls (fun u => !(u == "not-a-url"))
        "https://example.com/d/1\nnot-a-url\nhttps://example.com/d/2").2.length = 1
    ∧ (["https://example.com/d/1", "https://example.com/d/2"] : List String) ≠ []
    ∧ (["https://example.com/d/1", "https://example.com/d/2"] : List String).Sublist
        (trimmedLines "https://example.com/d/1\nnot-a-url\nhttps://example.com/d/2") := by
  have h := C5_parseUrls_contract (fun u => !(u == "not-a-url"))
    "https://example.com/d/1\nnot-a-url\nhttps://example.com/d/2"
  have hok : (parseUrls (fun u => !(u == "not-a-url"))
      "https://example.com/d/1\nnot-a-url\nhttps://example.com/d/2").1
      = Except.ok ["https://example.com/d/1", "https://example.com/d/2"] := rfl
  have h1 := h.1 _ hok
  exact ⟨hok, h.2.2.trans (by decide), h1.1, h1.2.2.1⟩

/-! ## Link verifier: body reading -/

/-- The sample read loop stops immediately once the total reached the
budget. -/
theorem readLoopSample_of_le (maxBytes : Nat) (chunks : List Nat) (downloaded : Nat)
    (h : maxBytes ≤ downloaded) :
    readLoopSample maxBytes chunks downloaded = downloaded := by
  cases chunks with
  | nil => rfl
  | cons c rest =>
    show (if downloaded < maxBytes then readLoopSample maxBytes rest (downloaded + c)
          else downloaded) = downloaded
    rw [if_neg (by omega)]

/-- Budget bound for the sample read loop: every read is initiated below
the budget, so with chunks of size at most `c` the total stays below
`maxBytes + c`. -/
theorem readLoopSample_le (maxBytes c : Nat) :
    ∀ chunks downloaded, downloaded < maxBytes → (∀ x ∈ chunks, x ≤ c) →
      readLoopSample maxBytes chunks downloaded ≤ maxBytes - 1 + c := by
  intro chunks
  induction chunks with
  | nil =>
    intro d hd _
    show d ≤ maxBytes - 1 + c
    omega
  | cons x rest ih =>
    intro d hd hx
    have hxc : x ≤ c := hx x (List.mem_cons_self _ _)
    show (if d < maxBytes then readLoopSample maxBytes rest (d + x) else d)
        ≤ maxBytes - 1 + c
    rw [if_pos hd]
    by_cases h2 : d + x < maxBytes
    · exact ih (d + x) h2 (fun y hy => hx y (List.mem_cons_of_mem _ hy))
    · rw [readLoopSample_of_le _ _ _ (by omega)]
      omega

/-- `readLoop` returns immediately once the total reached the budget. -/
theorem readLoop_of_le (b : Nat) (chunks : List Nat) (received : Nat)
    (h : b ≤ received) : readLoop b chunks received = (received, false) := by
  cases chunks with
  | nil => rfl
  | cons c rest =>
    show (if received < b then
            if b ≤ received + c then (received + c, true) else readLoop b rest (received + c)
          else (received, false)) = (received, false)
    rw [if_neg (by omega)]

/-- Budget bound and cancellation condition for `downloadPartial`'s read
loop, starting from any total still below the budget. -/
theorem readLoop_spec (b c : Nat) :
    ∀ chunks received, received < b → (∀ x ∈ chunks, x ≤ c) →
      (readLoop b chunks received).1 ≤ b - 1 + c
      ∧ ((readLoop b chunks received).2 = true ↔ b ≤ (readLoop b chunks received).1) := by
  intro chunks
  induction chunks with
  | nil =>
    intro r hr _
    refine ⟨?_, ?_⟩
    · show r ≤ b - 1 + c
      omega
    · show (false = true ↔ b ≤ r)
      constructor
      · intro h; exact absurd h (by simp)
      · intro h; omega
  | cons x rest ih =>
    intro r hr hx
    have hxc : x ≤ c := hx x (List.mem_cons_self _ _)
    have hshape : readLoop b (x :: rest) r
        = (if b ≤ r + x then (r + x, true) else readLoop b rest (r + x)) := by
      show (if r < b then
              if b ≤ r + x then (r + x, true) else readLoop b rest (r + x)
            else (r, false)) = _
      rw [if_pos hr]
    by_cases h2 : b ≤ r + x
    · rw [hshape, if_pos h2]
      exact ⟨by show r + x ≤ b - 1 + c; omega, by simpa using h2⟩
    · rw [hshape, if_neg h2]
      exact ih (r + x) (by omega) (fun y hy => hx y (List.mem_cons_of_mem _ hy))

/-- C1 counterexample: the claim says the verifier reads at most `budget`
(1 048 576) bytes from the body, but both read loops add whole chunks: a
single chunk larger than the budget is read in full, so more than
`budget` bytes are read from the body. -/
theorem C1_counterexample :
    1048576 < readLoopSample 1048576 [1048577] 0
    ∧ 1048576 < (readLoop 1048576 [2097152] 0).1 := by
  constructor <;> decide

/-- C1 (amended): each read of either verifier loop is initiated only
while fewer than `budget` bytes have been received, so when every chunk is
at most `c` bytes the loops read at most `budget - 1 + c` bytes in total;
`downloadPartial`'s loop cancels the reader exactly when the running total
reached the budget (`downloadSampleFromLink`'s loop never cancels — it
only stops reading and releases the lock). -/
theorem C1_read_bounded (budget c : Nat) (chunks : List Nat)
    (hb : 1 ≤ budget) (hc : ∀ x ∈ chunks, x ≤ c) :
    readLoopSample budget chunks 0 ≤ budget - 1 + c
    ∧ (readLoop budget chunks 0).1 ≤ budget - 1 + c
    ∧ ((readLoop budget chunks 0).2 = true ↔ budget ≤ (readLoop budget chunks 0).1) := by
  have h1 := readLoopSample_le budget c chunks 0 (by omega) hc
  have h2 := readLoop_spec budget c chunks 0 (by omega) hc
  exact ⟨h1, h2.1, h2.2⟩

/-- Witness for C1 (amended): a 1 MiB budget against a 10 MiB stream of
64 KiB chunks stays within `budget - 1 + 65536` bytes and the reader is
cancelled. -/
theorem C1_read_bounded_witness :
    readLoopSample 1048576 (List.replicate 20 65536) 0 ≤ 1048576 - 1 + 65536
    ∧ (readLoop 1048576 (List.replicate 20 65536) 0).2 = true := by
  have h := C1_read_bounded 1048576 65536 (List.replicate 20 65536) (by omega)
    (fun x hx => (List.eq_of_mem_replicate hx).le)
  exact ⟨h.1, h.2.2.mpr (by decide)⟩

/-! ## Link verifier: status handling -/

/-- C4: `downloadSampleFromLink` succeeds exactly on status 200 or 206,
whatever the body (even a null body); `downloadPartial` succeeds exactly
on status 200 or 206 whenever the response carries a body (as the fetch
API guarantees for 200/206 responses to a GET); any other status fails
both verifiers regardless of the body. -/
theorem C4_success_iff_status (stats : Stats) (statsP : StatsP) (url : String)
    (budget : Nat) (resp : Response) :
    ((downloadSampleFromLink stats url (Except.ok resp)).1 = true
        ↔ (resp.status = 200 ∨ resp.status = 206))
    ∧ (∀ chunks, resp.body = some chunks →
        ((downloadPartial statsP url budget (Except.ok resp)).1 = true
          ↔ (resp.status = 200 ∨ resp.status = 206)))
    ∧ (¬(resp.status = 200 ∨ resp.status = 206) →
        (downloadSampleFromLink stats url (Except.ok resp)).1 = false
        ∧ (downloadPartial statsP url budget (Except.ok resp)).1 = false) := by
  refine ⟨?_, ?_, ?_⟩
  · by_cases h : resp.status = 200 ∨ resp.status = 206
    · simp only [downloadSampleFromLink]
      rw [if_pos h]
      simp [h]
    · simp only [downloadSampleFromLink]
      rw [if_neg h]
      simp [h]
  · intro chunks hbody
    by_cases h : resp.status = 200 ∨ resp.status = 206
    · simp only [downloadPartial]
      rw [if_neg (not_not_intro h), hbody]
      simp [h]
    · simp only [downloadPartial]
      rw [if_pos h]
      simp [h]
  · intro h
    constructor
    · simp only [downloadSampleFromLink]
      rw [if_neg h]
    · simp only [downloadPartial]
      rw [if_pos h]

/-- Witness for C4: a 200 with a body succeeds in `downloadSampleFromLink`,
a 206 with a body succeeds in `downloadPartial`, and a 403 fails both. -/
theorem C4_success_iff_status_witness :
    (downloadSampleFromLink {} "L" (Except.ok ⟨200, "OK", some [5]⟩)).1 = true
    ∧ (downloadPartial {} "L" 1000 (Except.ok ⟨206, "Partial Content", some [5]⟩)).1 = true
    ∧ (downloadSampleFromLink {} "L" (Except.ok ⟨403, "Forbidden", some [5]⟩)).1 = false
    ∧ (downloadPartial {} "L" 1000 (Except.ok ⟨403, "Forbidden", some [5]⟩)).1 = false := by
  have h200 := C4_success_iff_status {} {} "L" 1000 ⟨200, "OK", some [5]⟩
  have h206 := C4_success_iff_status {} {} "L" 1000 ⟨206, "Partial Content", some [5]⟩
  have h403 := C4_success_iff_status {} {} "L" 1000 ⟨403, "Forbidden", some [5]⟩
  exact ⟨h200.1.mpr (by left; rfl), (h206.2.1 [5] rfl).mpr (by right; rfl),
         (h403.2.2 (by decide)).1, (h403.2.2 (by decide)).2⟩

/-! ## Link verifier: statistics updates -/

/-- C9: on a successful verification `downloadPartial` increments the
success counter by one and adds exactly `min(bytes actually read, budget)`
to the cumulative byte counter (and to the per-link byte map); on a failed
verification it appends the error message keyed by the link's URL and
increments the failure counter by one. -/
theorem C9_verification_counters (stats : StatsP) (url : String) (budget : Nat)
    (r : Except JsError Response) :
    (∀ (st : String) (chunks : List Nat) (status : Nat),
        r = Except.ok ⟨status, st, some chunks⟩ →
        (status = 200 ∨ status = 206) →
        downloadPartial stats url budget r
          = (true, { stats with
              successfulPings := stats.successfulPings + 1,
              downloadedBytes := stats.downloadedBytes
                + min ((readLoop budget chunks 0).1) budget,
              bytesPerLink := setAssoc stats.bytesPerLink url
                (getAssoc stats.bytesPerLink url
                  + min ((readLoop budget chunks 0).1) budget) })
        ∧ min ((readLoop budget chunks 0).1) budget ≤ budget)
    ∧ ((downloadPartial stats url budget r).1 = false →
        ∃ m, downloadPartial stats url budget r
          = (false, { stats with failedPings := stats.failedPings + 1,
                                 errors := stats.errors ++ [(url, m)] })) := by
  constructor
  · rintro st chunks status rfl hstat
    refine ⟨?_, Nat.min_le_right _ _⟩
    simp only [downloadPartial]
    rw [if_neg (not_not_intro hstat)]
  · intro hfalse
    rcases r with e | resp
    · exact ⟨e.message, rfl⟩
    · by_cases hstat : resp.status = 200 ∨ resp.status = 206
      · rcases hbody : resp.body with _ | chunks
        · refine ⟨noBodyMsg, ?_⟩
          simp only [downloadPartial]
          rw [if_neg (not_not_intro hstat), hbody]
          rfl
        · exfalso
          have htrue : (downloadPartial stats url budget (Except.ok resp)).1 = true := by
            simp only [downloadPartial]
            rw [if_neg (not_not_intro hstat), hbody]
          rw [htrue] at hfalse
          exact absurd hfalse (by simp)
      · refine ⟨httpErrorMsg resp, ?_⟩
        simp only [downloadPartial]
        rw [if_pos hstat]
        rfl

/-- Witness for C9 (end-to-end scenario D in miniature): a 206 response
whose stream would deliver 10 MiB against a 1 MiB budget counts exactly
1 048 576 bytes, and a 403 records one keyed error. -/
theorem C9_verification_counters_witness :
    downloadPartial {} "L" 1048576
        (Except.ok ⟨206, "Partial Content", some (List.replicate 10 1048576)⟩)
      = (true, { successfulPings := 1, downloadedBytes := 1048576,
                 bytesPerLink := [("L", 1048576)] })
    ∧ ∃ m, downloadPartial {} "L" 1048576 (Except.ok ⟨403, "Forbidden", some []⟩)
        = (false, { failedPings := 1, errors := [("L", m)] }) := by
  have h := C9_verification_counters {} "L" 1048576
    (Except.ok ⟨206, "Partial Content", some (List.replicate 10 1048576)⟩)
  have h2 := C9_verification_counters {} "L" 1048576
    (Except.ok ⟨403, "Forbidden", some []⟩)
  constructor
  · have he := (h.1 "Partial Content" (List.replicate 10 1048576) 206 rfl (by right; rfl)).1
    rw [he]
    decide
  · obtain ⟨m, hm⟩ := h2.2 (by decide)
    exact ⟨m, by rw [hm]; simp⟩

/-! ## Link verifier: per-call accounting invariant -/

/-- Evaluation of `downloadSampleFromLink` on a thrown fetch. -/
theorem dsfl_eq_error (stats : Stats) (url : String) (e : JsError) :
    downloadSampleFromLink stats url (Except.error e)
      = (false, { stats with
          failedDownloads := stats.failedDownloads + 1,
          errors := stats.errors ++ [(url, e.message)] }) := rfl

/-- Evaluation of `downloadSampleFromLink` on a 200/206 response. -/
theorem dsfl_eq_ok_pos (stats : Stats) (url : String) (resp : Response)
    (h : resp.status = 200 ∨ resp.status = 206) :
    downloadSampleFromLink stats url (Except.ok resp)
      = (true, { stats with successfulDownloads := stats.successfulDownloads + 1 }) := by
  simp only [downloadSampleFromLink]
  rw [if_pos h]

/-- Evaluation of `downloadSampleFromLink` on any other status. -/
theorem dsfl_eq_ok_neg (stats : Stats) (url : String) (resp : Response)
    (h : ¬(resp.status = 200 ∨ resp.status = 206)) :
    downloadSampleFromLink stats url (Except.ok resp)
      = (false, { stats with
          failedDownloads := stats.failedDownloads + 1,
          errors := stats.errors ++ [(url, httpErrorMsg resp)] }) := by
  simp only [downloadSampleFromLink]
  rw [if_neg h]

/-- Every call to `downloadSampleFromLink` bumps the sum of the success
and failure counters by exactly one. -/
theorem dsfl_sum (stats : Stats) (url : String) (r : Except JsError Response) :
    (downloadSampleFromLink stats url r).2.successfulDownloads
      + (downloadSampleFromLink stats url r).2.failedDownloads
    = stats.successfulDownloads + stats.failedDownloads + 1 := by
  rcases r with e | resp
  · show stats.successfulDownloads + (stats.failedDownloads + 1) = _
    omega
  · by_cases h : resp.status = 200 ∨ resp.status = 206
    · simp only [downloadSampleFromLink]
      rw [if_pos h]
      show stats.successfulDownloads + 1 + stats.failedDownloads = _
      omega
    · simp only [downloadSampleFromLink]
      rw [if_neg h]
      show stats.successfulDownloads + (stats.failedDownloads + 1) = _
      omega

/-- The state returned by the retried per-link operation is the state
`downloadSampleFromLink` produced, whether or not the wrapper throws. -/
theorem downloadOp_state (fetchEnv : String → Nat → Except JsError Response)
    (url : String) (i : Nat) (s : Stats) :
    (downloadOp fetchEnv url i s).2
      = (downloadSampleFromLink s url (fetchEnv url i)).2 := by
  unfold downloadOp
  by_cases h : (downloadSampleFromLink s url (fetchEnv url i)).1 <;> simp [h]

/-- A measure bumped by exactly one per operation call grows by the number
of attempts across `retryAux`. -/
theorem retryAux_measure {σ α : Type} (op : Nat → σ → Except JsError α × σ)
    (maxR : Nat) (m : σ → Nat)
    (hop : ∀ i s, m ((op i s).2) = m s + 1) :
    ∀ fuel attempt last s,
      m ((retryAux op maxR fuel attempt last s).state)
        = m s + (retryAux op maxR fuel attempt last s).attempts := by
  intro fuel
  induction fuel with
  | zero => intro _ _ s; rfl
  | succ f ih =>
    intro attempt last s
    have hm := hop attempt s
    rcases hE : op attempt s with ⟨res, s'⟩
    rw [hE] at hm
    simp only at hm
    rcases res with e | a
    · rw [retryAux_succ_error op maxR f attempt last s s' e hE]
      by_cases hcase : attempt < maxR
      · rw [if_pos hcase]
        simp only
        rw [ih (attempt + 1) (some e) s', hm]
        omega
      · rw [if_neg hcase]
        simp only
        omega
    · rw [retryAux_succ_ok op maxR f attempt last s s' a hE]
      simp only
      omega

/-- `retryOperation` version of `retryAux_measure`. -/
theorem retryOperation_measure {σ α : Type} (op : Nat → σ → Except JsError α × σ)
    (maxR : Nat) (m : σ → Nat) (s : σ)
    (hop : ∀ i s', m ((op i s').2) = m s' + 1) :
    m ((retryOperation op maxR s).state) = m s + (retryOperation op maxR s).attempts :=
  retryAux_measure op maxR m hop maxR 1 none s

/-- Across the per-link loop, the success and failure counters grow by
exactly the number of verifier invocations. -/
theorem linkLoop_measure (fetchEnv : String → Nat → Except JsError Response) :
    ∀ (links : List String) (stats : Stats) (k : Nat),
      (linkLoop fetchEnv links stats k).stats.successfulDownloads
        + (linkLoop fetchEnv links stats k).stats.failedDownloads
      = stats.successfulDownloads + stats.failedDownloads
        + (linkLoop fetchEnv links stats k).attempts := by
  intro links
  induction links with
  | nil => intro stats k; rfl
  | cons url rest ih =>
    intro stats k
    have hret := retryOperation_measure (downloadOp fetchEnv url) 2
      (fun s => s.successfulDownloads + s.failedDownloads) stats
      (fun i s' => by rw [downloadOp_state]; exact dsfl_sum s' url (fetchEnv url i))
    simp only at hret
    simp only [linkLoop]
    rcases hres : (retryOperation (downloadOp fetchEnv url) 2 stats).result with e | v
    · simp only
      omega
    · simp only
      rw [ih ((retryOperation (downloadOp fetchEnv url) 2 stats).state)
        (k + if v then 1 else 0)]
      omega

/-- C10: every call to `downloadSampleFromLink` increments exactly one of
the two counters by one; it returns `true` iff the success counter was
incremented, appends exactly one `(url, message)` error entry iff it
returns `false`, and consequently across the per-link loop
`successfulDownloads + failedDownloads` grows by exactly the number of
verifier invocations. -/
theorem C10_verifier_accounting (stats : Stats) (url : String)
    (r : Except JsError Response) :
    ((downloadSampleFromLink stats url r).2.successfulDownloads
        + (downloadSampleFromLink stats url r).2.failedDownloads
      = stats.successfulDownloads + stats.failedDownloads + 1)
    ∧ ((downloadSampleFromLink stats url r).1 = true
        ↔ (downloadSampleFromLink stats url r).2.successfulDownloads
            = stats.successfulDownloads + 1)
    ∧ ((downloadSampleFromLink stats url r).1 = false
        ↔ ∃ m, (downloadSampleFromLink stats url r).2.errors
            = stats.errors ++ [(url, m)])
    ∧ ((downloadSampleFromLink stats url r).1 = true →
        (downloadSampleFromLink stats url r).2.failedDownloads = stats.failedDownloads
        ∧ (downloadSampleFromLink stats url r).2.errors = stats.errors)
    ∧ ((downloadSampleFromLink stats url r).1 = false →
        (downloadSampleFromLink stats url r).2.successfulDownloads
            = stats.successfulDownloads
        ∧ (downloadSampleFromLink stats url r).2.failedDownloads
            = stats.failedDownloads + 1)
    ∧ (∀ (fetchEnv : String → Nat → Except JsError Response)
          (links : List String) (startStats : Stats) (k : Nat),
        (linkLoop fetchEnv links startStats k).stats.successfulDownloads
          + (linkLoop fetchEnv links startStats k).stats.failedDownloads
        = startStats.successfulDownloads + startStats.failedDownloads
          + (linkLoop fetchEnv links startStats k).attempts) := by
  have hone : ∀ (b : Bool) (s' : Stats),
      downloadSampleFromLink stats url r = (b, s') →
      (b = true → s' = { stats with successfulDownloads := stats.successfulDownloads + 1 })
      ∧ (b = false → ∃ m, s' = { stats with failedDownloads := stats.failedDownloads + 1, errors := stats.errors ++ [(url, m)] }) := by
    intro b s' hb
    rcases r with e | resp
    · rw [dsfl_eq_error stats url e] at hb
      refine ⟨?_, ?_⟩
      · intro htrue
        rw [htrue] at hb
        exact absurd (congrArg Prod.fst hb) (by simp)
      · intro _
        exact ⟨e.message, (congrArg Prod.snd hb).symm⟩
    · by_cases h : resp.status = 200 ∨ resp.status = 206
      · rw [dsfl_eq_ok_pos stats url resp h] at hb
        refine ⟨fun _ => (congrArg Prod.snd hb).symm, fun hfalse => ?_⟩
        rw [hfalse] at hb
        exact absurd (congrArg Prod.fst hb) (by simp)
      · rw [dsfl_eq_ok_neg stats url resp h] at hb
        refine ⟨fun htrue => ?_, fun _ => ⟨httpErrorMsg resp, (congrArg Prod.snd hb).symm⟩⟩
        rw [htrue] at hb
        exact absurd (congrArg Prod.fst hb) (by simp)
  obtain ⟨b, s', hb⟩ : ∃ b s', downloadSampleFromLink stats url r = (b, s') :=
    ⟨_, _, rfl⟩
  have h1 := (hone b s' hb).1
  have h2 := (hone b s' hb).2
  refine ⟨dsfl_sum stats url r, ?_, ?_, ?_, ?_, fun f l s0 k => linkLoop_measure f l s0 k⟩
  · rw [hb]
    cases b with
    | true => simp [h1 rfl]
    | false =>
      obtain ⟨m, hm⟩ := h2 rfl
      simp [hm]
  · rw [hb]
    dsimp only
    cases b with
    | true =>
      rw [h1 rfl]
      constructor
      · intro hfalse
        exact absurd hfalse (by simp)
      · rintro ⟨m, hm⟩
        have hlen := congrArg List.length hm
        simp at hlen
    | false =>
      obtain ⟨m, hm⟩ := h2 rfl
      rw [hm]
      constructor
      · intro _
        exact ⟨m, rfl⟩
      · intro _
        rfl
  · rw [hb]
    dsimp only
    intro htrue
    rw [h1 htrue]
    exact ⟨rfl, rfl⟩
  · rw [hb]
    dsimp only
    intro hfalse
    obtain ⟨m, hm⟩ := h2 hfalse
    rw [hm]
    exact ⟨rfl, rfl⟩

/-- Witness for C10: one success and one failure starting from fresh
stats, plus a two-invocation loop over a single failing link. -/
theorem C10_verifier_accounting_witness :
    (downloadSampleFromLink {} "L" (Except.ok ⟨200, "OK", some [7]⟩)).2.successfulDownloads
        + (downloadSampleFromLink {} "L" (Except.ok ⟨200, "OK", some [7]⟩)).2.failedDownloads = 1
    ∧ (downloadSampleFromLink {} "L" (Except.error ⟨"net down"⟩)).2.failedDownloads = 1
    ∧ (∃ m, (downloadSampleFromLink {} "L" (Except.error ⟨"net down"⟩)).2.errors
        = [] ++ [("L", m)])
    ∧ ((linkLoop (fun _ _ => Except.ok ⟨500, "Server Error", some []⟩) ["L"] {} 0).stats.successfulDownloads
        + (linkLoop (fun _ _ => Except.ok ⟨500, "Server Error", some []⟩) ["L"] {} 0).stats.failedDownloads
        = (linkLoop (fun _ _ => Except.ok ⟨500, "Server Error", some []⟩) ["L"] {} 0).attempts) := by
  have hA := C10_verifier_accounting {} "L" (Except.ok ⟨200, "OK", some [7]⟩)
  have hB := C10_verifier_accounting {} "L" (Except.error ⟨"net down"⟩)
  refine ⟨hA.1, ?_, ?_, ?_⟩
  · exact (hB.2.2.2.2.1 rfl).2
  · exact hB.2.2.1.mp rfl
  · exact hA.2.2.2.2.2 (fun _ _ => Except.ok ⟨500, "Server Error", some []⟩) ["L"] {} 0

/-! ## Target processing and the run loop -/

/-- A reflexive transitive relation preserved by every operation call is
preserved across `retryAux`. -/
theorem retryAux_pres {σ α : Type} (op : Nat → σ → Except JsError α × σ)
    (maxR : Nat) (P : σ → σ → Prop)
    (hrefl : ∀ s, P s s)
    (htrans : ∀ a b c, P a b → P b c → P a c)
    (hop : ∀ i s, P s ((op i s).2)) :
    ∀ fuel attempt last s, P s ((retryAux op maxR fuel attempt last s).state) := by
  intro fuel
  induction fuel with
  | zero => intro _ _ s; exact hrefl s
  | succ f ih =>
    intro attempt last s
    have h1 := hop attempt s
    rcases hE : op attempt s with ⟨res, s'⟩
    rw [hE] at h1
    simp only at h1
    rcases res with e | a
    · rw [retryAux_succ_error op maxR f attempt last s s' e hE]
      by_cases hcase : attempt < maxR
      · rw [if_pos hcase]
        exact htrans _ _ _ h1 (ih (attempt + 1) (some e) s')
      · rw [if_neg hcase]
        exact h1
    · rw [retryAux_succ_ok op maxR f attempt last s s' a hE]
      exact h1

/-- `retryOperation` version of `retryAux_pres`. -/
theorem retryOperation_pres {σ α : Type} (op : Nat → σ → Except JsError α × σ)
    (maxR : Nat) (P : σ → σ → Prop) (s : σ)
    (hrefl : ∀ s', P s' s')
    (htrans : ∀ a b c, P a b → P b c → P a c)
    (hop : ∀ i s', P s' ((op i s').2)) :
    P s ((retryOperation op maxR s).state) :=
  retryAux_pres op maxR P hrefl htrans hop maxR 1 none s

/-- `downloadSampleFromLink` only ever appends to the error list. -/
theorem dsfl_errors_mono (stats : Stats) (url : String)
    (r : Except JsError Response) :
    stats.errors <+: (downloadSampleFromLink stats url r).2.errors := by
  rcases r with e | resp
  · rw [dsfl_eq_error]
    exact List.prefix_append _ _
  · by_cases h : resp.status = 200 ∨ resp.status = 206
    · rw [dsfl_eq_ok_pos stats url resp h]
    · rw [dsfl_eq_ok_neg stats url resp h]
      exact List.prefix_append _ _

/-- The retried per-link operation only ever appends to the error list. -/
theorem downloadOp_errors_mono (fetchEnv : String → Nat → Except JsError Response)
    (url : String) (i : Nat) (s : Stats) :
    s.errors <+: ((downloadOp fetchEnv url i s).2).errors := by
  rw [downloadOp_state]
  exact dsfl_errors_mono s url (fetchEnv url i)

/-- The per-link loop only ever appends to the error list. -/
theorem linkLoop_errors_mono (fetchEnv : String → Nat → Except JsError Response) :
    ∀ (links : List String) (stats : Stats) (k : Nat),
      stats.errors <+: (linkLoop fetchEnv links stats k).stats.errors := by
  intro links
  induction links with
  | nil => intro stats k; exact List.prefix_refl _
  | cons url rest ih =>
    intro stats k
    have h1 : stats.errors <+: ((retryOperation (downloadOp fetchEnv url) 2 stats).state).errors :=
      retryOperation_pres (downloadOp fetchEnv url) 2
        (fun a b => a.errors <+: b.errors) stats (fun _ => List.prefix_refl _)
        (fun _ _ _ hab hbc => hab.trans hbc) (downloadOp_errors_mono fetchEnv url)
    simp only [linkLoop]
    rcases hres : (retryOperation (downloadOp fetchEnv url) 2 stats).result with e | v
    · exact h1
    · exact h1.trans (ih _ _)

/-- The probe phase never mutates the statistics. -/
theorem probe_retry_state (probe : String → Nat → Except JsError (List String))
    (url : String) (maxR : Nat) (stats : Stats) :
    (retryOperation (probeOp probe url) maxR stats).state = stats :=
  (retryOperation_pres (probeOp probe url) maxR (fun a b => a = b) stats
    (fun _ => rfl) (fun _ _ _ hab hbc => hab.trans hbc) (fun _ _ => rfl)).symm

/-- `processUrl` only ever appends to the error list. -/
theorem processUrl_errors_mono (probe : String → Nat → Except JsError (List String))
    (fetchEnv : String → Nat → Except JsError Response)
    (maxR : Nat) (stats : Stats) (url : String) :
    stats.errors <+: (processUrl probe fetchEnv maxR stats url).stats.errors := by
  simp only [processUrl]
  rcases hres : (retryOperation (probeOp probe url) maxR stats).result with e | links
  · simp only []
    rw [probe_retry_state]
  · simp only []
    by_cases hlen : links.length = 0
    · rw [if_pos hlen]
      simp only
      rw [probe_retry_state]
    · rw [if_neg hlen]
      simp only
      rw [probe_retry_state]
      exact linkLoop_errors_mono fetchEnv links
        { stats with totalLinks := stats.totalLinks + links.length } 0

/-- The run loop only ever appends to the error list. -/
theorem runLoop_errors_mono (probe : String → Nat → Except JsError (List String))
    (fetchEnv : String → Nat → Except JsError Response) (maxR : Nat) :
    ∀ (urls : List String) (stats : Stats),
      stats.errors <+: (runLoop probe fetchEnv maxR urls stats).errors := by
  intro urls
  induction urls with
  | nil => intro stats; exact List.prefix_refl _
  | cons url rest ih =>
    intro stats
    simp only [runLoop]
    rcases hres : (processUrl probe fetchEnv maxR stats url).result with e | n
    · simp only []
      have hmid : stats.errors
          <+: ((processUrl probe fetchEnv maxR stats url).stats.errors ++ [(url, errText e)]) :=
        (processUrl_errors_mono probe fetchEnv maxR stats url).trans (List.prefix_append _ _)
      have htail := ih { (processUrl probe fetchEnv maxR stats url).stats with
        errors := (processUrl probe fetchEnv maxR stats url).stats.errors ++ [(url, errText e)] }
      exact hmid.trans htail
    · simp only []
      exact (processUrl_errors_mono probe fetchEnv maxR stats url).trans (ih _)

/-- C7: a target whose processing throws (after its probe retries are
exhausted) does not abort the run — its error is recorded under the
target's URL and the loop continues with the remaining targets, whose
contributions appear in the final statistics; a target whose probe finds
zero links returns 0 and leaves the statistics untouched (contributing 0
links and 0 verifications, with no recorded error); and whenever any
target contributed at least one successful verification, `run` returns
the final statistics successfully. -/
theorem C7_probe_failure_isolated (probe : String → Nat → Except JsError (List String))
    (fetchEnv : String → Nat → Except JsError Response) (maxR : Nat)
    (stats : Stats) (url : String) (rest : List String)
    (e : Option JsError) (s' : Stats) :
    (processUrl probe fetchEnv maxR stats url = ⟨Except.error e, s'⟩ →
       runLoop probe fetchEnv maxR (url :: rest) stats
         = runLoop probe fetchEnv maxR rest
             { s' with errors := s'.errors ++ [(url, errText e)] }
       ∧ (url, errText e) ∈ (runLoop probe fetchEnv maxR (url :: rest) stats).errors)
    ∧ (1 ≤ maxR → probe url 1 = Except.ok [] →
        processUrl probe fetchEnv maxR stats url = ⟨Except.ok 0, stats⟩)
    ∧ (∀ (isValidURL : String → Bool) (config : String) (urls : List String),
        (parseUrls isValidURL config).1 = Except.ok urls →
        0 < (runLoop probe fetchEnv maxR urls { totalUrls := urls.length }).successfulDownloads →
        run isValidURL config probe fetchEnv maxR
          = Except.ok (runLoop probe fetchEnv maxR urls { totalUrls := urls.length })) := by
  refine ⟨?_, ?_, ?_⟩
  · intro h
    have heq : runLoop probe fetchEnv maxR (url :: rest) stats
        = runLoop probe fetchEnv maxR rest
            { s' with errors := s'.errors ++ [(url, errText e)] } := by
      simp only [runLoop, h]
    refine ⟨heq, ?_⟩
    rw [heq]
    have hpre := runLoop_errors_mono probe fetchEnv maxR rest
      { s' with errors := s'.errors ++ [(url, errText e)] }
    exact List.Sublist.mem (by simp) hpre.sublist
  · intro hmax hprobe
    obtain ⟨m, rfl⟩ : ∃ m, maxR = m + 1 := ⟨maxR - 1, by omega⟩
    have hop : probeOp probe url 1 stats = (Except.ok ([] : List String), stats) := by
      simp [probeOp, hprobe]
    have hret : retryOperation (probeOp probe url) (m + 1) stats
        = ⟨Except.ok [], stats, 1, []⟩ :=
      retryAux_succ_ok (probeOp probe url) (m + 1) m 1 none stats stats [] hop
    simp [processUrl, hret]
  · intro isValidURL config urls hparse hpos
    simp only [run, hparse]
    rw [if_neg ?_]
    rintro ⟨h0, _⟩
    omega

/-- Witness for C7 (end-to-end scenario B): a run over a timing-out target
followed by a healthy target records the first target's error, keeps
going, and succeeds; a zero-link target leaves the statistics untouched. -/
theorem C7_probe_failure_isolated_witness :
    runLoop probeFixture fetchFixture 3 ["https://bad", "https://good"] { totalUrls := 2 }
      = runLoop probeFixture fetchFixture 3 ["https://good"]
          { totalUrls := 2, errors := [("https://bad", "timeout")] }
    ∧ ("https://bad", "timeout")
        ∈ (runLoop probeFixture fetchFixture 3 ["https://bad", "https://good"]
            { totalUrls := 2 }).errors
    ∧ processUrl probeFixture fetchFixture 3 { totalUrls := 2 } "https://zero"
        = ⟨Except.ok 0, { totalUrls := 2 }⟩
    ∧ run (fun _ => true) "https://bad\nhttps://good" probeFixture fetchFixture 3
        = Except.ok { totalUrls := 2, totalLinks := 1, successfulDownloads := 1,
                      errors := [("https://bad", "timeout")] } := by
  have h := C7_probe_failure_isolated probeFixture fetchFixture 3 { totalUrls := 2 }
    "https://bad" ["https://good"] (some ⟨"timeout"⟩) { totalUrls := 2 }
  have hz := C7_probe_failure_isolated probeFixture fetchFixture 3 { totalUrls := 2 }
    "https://zero" [] none { totalUrls := 2 }
  have h1 := h.1 rfl
  have h2 := hz.2.1 (by omega) rfl
  have h3 := h.2.2 (fun _ => true) "https://bad\nhttps://good"
    ["https://bad", "https://good"] rfl (by decide)
  exact ⟨h1.1, h1.2, h2, h3⟩

/-! ## Run summary and exit code -/

/-- C6: whenever the final statistics show at least one discovered link
and zero successful verifications, `run` throws the terminal error and the
process exits with code 1 (non-zero). -/
theorem C6_zero_success_nonzero_exit (isValidURL : String → Bool) (config : String)
    (probe : String → Nat → Except JsError (List String))
    (fetchEnv : String → Nat → Except JsError Response)
    (maxR : Nat) (urls : List String)
    (hparse : (parseUrls isValidURL config).1 = Except.ok urls)
    (hzero : (runLoop probe fetchEnv maxR urls { totalUrls := urls.length }).successfulDownloads = 0)
    (hlinks : 0 < (runLoop probe fetchEnv maxR urls { totalUrls := urls.length }).totalLinks) :
    run isValidURL config probe fetchEnv maxR = Except.error ⟨noSuccessMsg⟩
    ∧ mainExitCode (run isValidURL config probe fetchEnv maxR) = 1
    ∧ (1 : Nat) ≠ 0 := by
  have hrun : run isValidURL config probe fetchEnv maxR = Except.error ⟨noSuccessMsg⟩ := by
    simp only [run, hparse]
    rw [if_pos ⟨hzero, hlinks⟩]
  exact ⟨hrun, by rw [hrun]; rfl, by omega⟩

/-- Witness for C6 (end-to-end scenario C): one target, one link, every
fetch answering 403 — the run throws and the exit code is 1. -/
theorem C6_zero_success_nonzero_exit_witness :
    run (fun _ => true) "https://x" (fun _ _ => Except.ok ["L"])
        (fun _ _ => Except.ok ⟨403, "Forbidden", some []⟩) 3
      = Except.error ⟨noSuccessMsg⟩
    ∧ mainExitCode (run (fun _ => true) "https://x" (fun _ _ => Except.ok ["L"])
        (fun _ _ => Except.ok ⟨403, "Forbidden", some []⟩) 3) = 1 := by
  have h := C6_zero_success_nonzero_exit (fun _ => true) "https://x"
    (fun _ _ => Except.ok ["L"]) (fun _ _ => Except.ok ⟨403, "Forbidden", some []⟩)
    3 ["https://x"] rfl (by decide) (by decide)
  exact ⟨h.1, h.2.1⟩

/-- C2: evaluation of the per-link loop at the failing input.  Two
candidate links, every fetch of the first answering HTTP 403: both retry
attempts of link `L1` fail and are recorded, after which `retryOperation`
throws `Download failed`; the exception escapes the per-link loop — only
two verifier invocations happen, both against `L1`, the second link is
never verified, and `processUrl` propagates the error to its caller
instead of returning a count. -/
theorem C2_link_failure_aborts_target :
    (linkLoop (fun _ _ => Except.ok ⟨403, "Forbidden", some []⟩) ["L1", "L2"] {} 0).result
      = Except.error (some ⟨"Download failed"⟩)
    ∧ (linkLoop (fun _ _ => Except.ok ⟨403, "Forbidden", some []⟩) ["L1", "L2"] {} 0).attempts = 2
    ∧ (linkLoop (fun _ _ => Except.ok ⟨403, "Forbidden", some []⟩) ["L1", "L2"] {} 0).stats.failedDownloads = 2
    ∧ (linkLoop (fun _ _ => Except.ok ⟨403, "Forbidden", some []⟩) ["L1", "L2"] {} 0).stats.errors
      = [("L1", "HTTP 403 Forbidden"), ("L1", "HTTP 403 Forbidden")]
    ∧ (processUrl (fun _ _ => Except.ok ["L1", "L2"])
        (fun _ _ => Except.ok ⟨403, "Forbidden", some []⟩) 3 {} "T").result
      = Except.error (some ⟨"Download failed"⟩) := by
  refine ⟨rfl, rfl, rfl, ?_, rfl⟩
  rfl

end KGF
